import Mathlib

/-!
Shallow embedding of the assets-loading-tracker repository.

The repository tracks loading progress of page assets (images, videos,
audios, fonts).  Per-kind scanners settle each resource as loaded or
failed, racing listeners against a timeout; a React hook aggregates the
settlement outcomes into counters and derives a progress percentage and
a completion flag.  This file embeds:

* the counter aggregator and the derived-state effect of the passive
  useAssetLoader hook (src/unnamed/part_003, lines 465-594);
* the per-resource settlement trackers of scanImages / scanVideos /
  scanAudios / scanFonts (src/src/utils/audioScanner.ts,
  src/src/utils/videoScanner.ts) as resolve-attempt lists raced by
  first-settlement-wins promise semantics;
* the scan/ignore configuration logic of the passive hook;
* the imperative useAssetLoader hook (src/src/hooks/useAssetLoader.ts)
  with its loadImage and loadFont operations.
-/

/-- Settlement outcome of one tracked resource: the string literals
"loaded" / "failed" used throughout the scanners. -/
inductive Outcome where
  | loaded
  | failed
deriving DecidableEq, Repr

/-- Counter state of the passive useAssetLoader hook: the useState cells
totalCount, loadedCount, failedCount (part_003 lines 471-477). -/
structure Counters where
  totalCount : Nat
  loadedCount : Nat
  failedCount : Nat
deriving DecidableEq, Repr

/-- Counter state right after the mount effect has set totalCount
(setTotalCount(totalAssets.current)) and before any settlement callback
has run: loadedCount = failedCount = 0. -/
def initCounters (total : Nat) : Counters :=
  { totalCount := total, loadedCount := 0, failedCount := 0 }

/-- One settlement callback firing: setLoadedCount(prev => prev + 1) for
a loaded outcome, setFailedCount(prev => prev + 1) for a failed outcome
(scanner .then handlers, e.g. audioScanner.ts lines 139-157). -/
def applyOutcome (c : Counters) (o : Outcome) : Counters :=
  match o with
  | Outcome.loaded => { c with loadedCount := c.loadedCount + 1 }
  | Outcome.failed => { c with failedCount := c.failedCount + 1 }

/-- Counter state after a sequence of settlement outcomes has been
delivered to the aggregator, starting from the post-mount state. -/
def runOutcomes (total : Nat) (os : List Outcome) : Counters :=
  os.foldl applyOutcome (initCounters total)

/-- Derived state of the passive hook: the useState cells progress and
isComplete (part_003 lines 480-483). -/
structure Derived where
  progress : ℚ
  isComplete : Bool
deriving DecidableEq, Repr

/-- Initial derived state: useState(0), useState(false). -/
def initDerived : Derived :=
  { progress := 0, isComplete := false }

/-- Body of the then-branch of the recompute effect (part_003 lines
576-583): progress = ((loadedCount + failedCount) / totalCount) * 100 and
isComplete = (loadedCount + failedCount === totalCount). -/
def pureDerived (c : Counters) : Derived :=
  { progress := ((c.loadedCount : ℚ) + (c.failedCount : ℚ)) / (c.totalCount : ℚ) * 100,
    isComplete := c.loadedCount + c.failedCount == c.totalCount }

/-- The recompute effect (part_003 lines 573-585): runs on every counter
change; only updates the derived state when totalCount > 0, otherwise the
previous derived state is kept. -/
def recompute (c : Counters) (d : Derived) : Derived :=
  if 0 < c.totalCount then pureDerived c else d

/-- One observable step of the passive hook after mount: a settlement
outcome updates a counter and the recompute effect reruns. -/
def hookStep (s : Counters × Derived) (o : Outcome) : Counters × Derived :=
  let c := applyOutcome s.1 o
  (c, recompute c s.2)

/-- Full run of the passive hook: mount sets totalCount (triggering one
recompute, since the effect depends on totalCount), then each settlement
outcome updates the counters and reruns the recompute effect. -/
def hookRun (total : Nat) (os : List Outcome) : Counters × Derived :=
  os.foldl hookStep (initCounters total, recompute (initCounters total) initDerived)

lemma foldl_applyOutcome_totalCount (os : List Outcome) (c : Counters) :
    (os.foldl applyOutcome c).totalCount = c.totalCount := by
  induction os generalizing c with
  | nil => rfl
  | cons x xs ih =>
    rw [List.foldl_cons, ih]
    cases x <;> rfl

lemma foldl_applyOutcome_sum (os : List Outcome) (c : Counters) :
    (os.foldl applyOutcome c).loadedCount + (os.foldl applyOutcome c).failedCount
      = c.loadedCount + c.failedCount + os.length := by
  induction os generalizing c with
  | nil => rfl
  | cons x xs ih =>
    rw [List.foldl_cons, ih]
    cases x <;> simp [applyOutcome] <;> omega

lemma le_foldl_applyOutcome_loadedCount (os : List Outcome) (c : Counters) :
    c.loadedCount ≤ (os.foldl applyOutcome c).loadedCount := by
  induction os generalizing c with
  | nil => exact Nat.le_refl _
  | cons x xs ih =>
    rw [List.foldl_cons]
    refine Nat.le_trans ?_ (ih (applyOutcome c x))
    cases x <;> simp [applyOutcome]

lemma le_foldl_applyOutcome_failedCount (os : List Outcome) (c : Counters) :
    c.failedCount ≤ (os.foldl applyOutcome c).failedCount := by
  induction os generalizing c with
  | nil => exact Nat.le_refl _
  | cons x xs ih =>
    rw [List.foldl_cons]
    refine Nat.le_trans ?_ (ih (applyOutcome c x))
    cases x <;> simp [applyOutcome]

lemma foldl_hookStep_fst (os : List Outcome) (c : Counters) (d : Derived) :
    (os.foldl hookStep (c, d)).1 = os.foldl applyOutcome c := by
  induction os generalizing c d with
  | nil => rfl
  | cons x xs ih =>
    rw [List.foldl_cons, List.foldl_cons]
    exact ih _ _

lemma hookRun_fst (total : Nat) (os : List Outcome) :
    (hookRun total os).1 = runOutcomes total os :=
  foldl_hookStep_fst os (initCounters total) _

lemma foldl_hookStep_snd_zero (os : List Outcome) (c : Counters) (d : Derived)
    (h : c.totalCount = 0) :
    (os.foldl hookStep (c, d)).2 = d := by
  induction os generalizing c d with
  | nil => rfl
  | cons x xs ih =>
    rw [List.foldl_cons]
    have hc : (applyOutcome c x).totalCount = 0 := by cases x <;> simpa [applyOutcome] using h
    have hr : recompute (applyOutcome c x) d = d := by
      simp [recompute, hc]
    simp only [hookStep]
    rw [hr]
    exact ih _ _ hc

lemma hookRun_snd_zero (os : List Outcome) :
    (hookRun 0 os).2 = initDerived := by
  have h0 : recompute (initCounters 0) initDerived = initDerived := by
    simp [recompute, initCounters]
  rw [hookRun, h0]
  exact foldl_hookStep_snd_zero os _ _ rfl

lemma foldl_hookStep_snd_pos (os : List Outcome) (c : Counters)
    (h : 0 < c.totalCount) :
    (os.foldl hookStep (c, pureDerived c)).2 = pureDerived (os.foldl applyOutcome c) := by
  induction os generalizing c with
  | nil => rfl
  | cons x xs ih =>
    rw [List.foldl_cons, List.foldl_cons]
    have hc : (applyOutcome c x).totalCount = c.totalCount := by cases x <;> rfl
    have hr : hookStep (c, pureDerived c) x = (applyOutcome c x, pureDerived (applyOutcome c x)) := by
      simp [hookStep, recompute, hc, h]
    rw [hr]
    exact ih _ (by rw [hc]; exact h)

lemma hookRun_snd_pos (total : Nat) (os : List Outcome) (h : 0 < total) :
    (hookRun total os).2 = pureDerived (runOutcomes total os) := by
  have h0 : recompute (initCounters total) initDerived = pureDerived (initCounters total) := by
    simp [recompute, initCounters, h]
  rw [hookRun, h0]
  exact foldl_hookStep_snd_pos os _ h

/-- Timeout duration of the settlement race: 7 seconds (the literal 7000
ms passed to setTimeout in scanVideos, scanAudios and scanFonts), in
seconds as the time unit. -/
def timeoutDuration : Nat := 7

/-- Promise first-resolution-wins combiner: a promise keeps the earliest
resolve call and ignores all later ones. -/
def raceStep (acc : Option (Nat × Outcome)) (a : Nat × Outcome) :
    Option (Nat × Outcome) :=
  match acc with
  | none => some a
  | some b => if a.1 < b.1 then some a else some b

/-- The settlement of a list of resolve attempts (time, outcome): the
earliest attempt wins, earlier-registered attempts win ties; none when no
attempt ever resolves. -/
def firstSettlement (l : List (Nat × Outcome)) : Option (Nat × Outcome) :=
  l.foldl raceStep none

/-- Observable behavior of one audio/video media element: its readyState
at scan time, and the times (if any) at which its canplay and error
events would fire. -/
structure MediaResource where
  readyState : Nat
  canplayAt : Option Nat
  errorAt : Option Nat
deriving DecidableEq, Repr

/-- Resolve attempts of the slow-path event listeners registered on a
media element: canplay resolves "loaded", error resolves "failed"
(videoScanner.ts lines 185-198, audioScanner.ts lines 102-107). -/
def mediaListenerAttempts (r : MediaResource) : List (Nat × Outcome) :=
  (match r.canplayAt with
   | some t => [(t, Outcome.loaded)]
   | none => []) ++
  (match r.errorAt with
   | some t => [(t, Outcome.failed)]
   | none => [])

/-- Resolve attempts of the scanVideos / scanAudios tracker for one media
element: fast path when readyState >= 4 resolves "loaded" immediately;
otherwise listeners are registered and raced against the 7-second timeout
that resolves "failed" (videoScanner.ts lines 157-227, audioScanner.ts
lines 88-132). -/
def mediaResolveAttempts (r : MediaResource) : List (Nat × Outcome) :=
  if 4 ≤ r.readyState then
    [(0, Outcome.loaded)]
  else
    mediaListenerAttempts r ++ [(timeoutDuration, Outcome.failed)]

/-- Settlement of one media element: the first resolve attempt wins. -/
def settleMedia (r : MediaResource) : Option (Nat × Outcome) :=
  firstSettlement (mediaResolveAttempts r)

/-- Counter increments one media element contributes to the aggregator:
the single settled outcome, if any. -/
def mediaIncrements (r : MediaResource) : List Outcome :=
  match settleMedia r with
  | some p => [p.2]
  | none => []

/-- Observable behavior of one img element: its complete flag and
naturalWidth at scan time, and the times (if any) at which its load and
error events would fire. -/
structure ImageResource where
  complete : Bool
  naturalWidth : Nat
  loadAt : Option Nat
  errorAt : Option Nat
deriving DecidableEq, Repr

/-- Resolve attempts of the slow-path event listeners registered on an
image: load resolves "loaded", error resolves "failed"
(audioScanner.ts lines 354-359, the scanImages part). -/
def imageListenerAttempts (r : ImageResource) : List (Nat × Outcome) :=
  (match r.loadAt with
   | some t => [(t, Outcome.loaded)]
   | none => []) ++
  (match r.errorAt with
   | some t => [(t, Outcome.failed)]
   | none => [])

/-- Resolve attempts of the scanImages tracker for one image: fast path
when complete is set resolves immediately, "loaded" when naturalWidth > 0
and "failed" otherwise; else only the two event listeners are registered —
scanImages races no timeout (audioScanner.ts lines 335-362, the
scanImages part). -/
def imageResolveAttempts (r : ImageResource) : List (Nat × Outcome) :=
  if r.complete then
    [(0, if 0 < r.naturalWidth then Outcome.loaded else Outcome.failed)]
  else
    imageListenerAttempts r

/-- Settlement of one image: the first resolve attempt wins; none when no
attempt ever resolves. -/
def settleImage (r : ImageResource) : Option (Nat × Outcome) :=
  firstSettlement (imageResolveAttempts r)

/-- Counter increments one image contributes to the aggregator. -/
def imageIncrements (r : ImageResource) : List Outcome :=
  match settleImage r with
  | some p => [p.2]
  | none => []

/-- Loading status of a FontFace entry, as read from font.status. -/
inductive FontStatus where
  | unloaded
  | loading
  | loaded
  | error
deriving DecidableEq, Repr

/-- Observable behavior of one font: its status at scan time and, for a
loading font, the time and success flag with which its font.loaded
promise would settle, if ever. -/
structure FontResource where
  status : FontStatus
  settledAt : Option (Nat × Bool)
deriving DecidableEq, Repr

/-- Resolve attempts of the scanFonts tracker for one font: status
"loaded" and "unloaded" count immediately as loaded, status "error"
counts immediately as failed, and a font with status "loading" races its
font.loaded promise against the 7-second timeout (audioScanner.ts lines
234-279, the scanFonts part). -/
def fontResolveAttempts (r : FontResource) : List (Nat × Outcome) :=
  match r.status with
  | FontStatus.loaded => [(0, Outcome.loaded)]
  | FontStatus.error => [(0, Outcome.failed)]
  | FontStatus.unloaded => [(0, Outcome.loaded)]
  | FontStatus.loading =>
    (match r.settledAt with
     | some p => [(p.1, if p.2 then Outcome.loaded else Outcome.failed)]
     | none => []) ++ [(timeoutDuration, Outcome.failed)]

/-- Settlement of one font: the first resolve attempt wins. -/
def settleFont (r : FontResource) : Option (Nat × Outcome) :=
  firstSettlement (fontResolveAttempts r)

/-- Counter increments one font contributes to the aggregator. -/
def fontIncrements (r : FontResource) : List Outcome :=
  match settleFont r with
  | some p => [p.2]
  | none => []

lemma foldl_raceStep_some (l : List (Nat × Outcome)) :
    ∀ b : Nat × Outcome, ((l.foldl raceStep (some b)).isSome = true) := by
  induction l with
  | nil => intro b; rfl
  | cons x xs ih =>
    intro b
    rw [List.foldl_cons]
    simp only [raceStep]
    split <;> exact ih _

lemma firstSettlement_cons_isSome (a : Nat × Outcome) (l : List (Nat × Outcome)) :
    (firstSettlement (a :: l)).isSome = true := by
  rw [firstSettlement, List.foldl_cons]
  exact foldl_raceStep_some l a

/-- Asset kinds supported by the passive useAssetLoader hook
(part_003 lines 275-281). -/
inductive Kind where
  | images
  | videos
  | audios
  | fonts
deriving DecidableEq, Repr

/-- The scan option of AssetLoaderOptions: either the string "all" or an
explicit array of kinds (part_003 lines 270-276). -/
inductive ScanOption where
  | all
  | kinds (ks : List Kind)
deriving DecidableEq, Repr

/-- Configuration of the passive hook, with the defaults applied by
destructuring (scan = "all", ignore = [], part_003 line 510). -/
structure AssetLoaderOptions where
  scan : ScanOption
  ignore : List Kind
deriving DecidableEq, Repr

/-- Whether a kind is scanned: (scan === "all" || scan.includes(kind)) &&
!ignore.includes(kind) (part_003 lines 513-514, 525-526, 537-538,
549-550, identical per kind). -/
def shouldScan (opts : AssetLoaderOptions) (k : Kind) : Bool :=
  (match opts.scan with
   | ScanOption.all => true
   | ScanOption.kinds ks => ks.contains k) && !(opts.ignore.contains k)

/-- The kinds the mount effect considers, in source order: images,
videos, audios, fonts (part_003 lines 512-558). -/
def allKinds : List Kind :=
  [Kind.images, Kind.videos, Kind.audios, Kind.fonts]

/-- Total asset count accumulated by the mount effect: each scanned kind
contributes its document count to totalAssets.current, then
setTotalCount(totalAssets.current) publishes the sum (part_003 lines
512-561). The document is abstracted as a per-kind resource count. -/
def mountTotal (opts : AssetLoaderOptions) (doc : Kind → Nat) : Nat :=
  (allKinds.map (fun k => if shouldScan opts k then doc k else 0)).sum

lemma kind_contains_iff (l : List Kind) (k : Kind) :
    l.contains k = true ↔ k ∈ l := by
  induction l with
  | nil => simp
  | cons x xs ih =>
    simp only [List.contains_cons, Bool.or_eq_true, beq_iff_eq, List.mem_cons, ih]

/-- State of the imperative useAssetLoader hook
(src/src/hooks/useAssetLoader.ts lines 4-6): only loadedCount and
totalCount exist; the hook maintains no failed counter. -/
structure ImpState where
  loadedCount : Nat
  totalCount : Nat
deriving DecidableEq, Repr

/-- Initial imperative hook state: useState(0), useState(0). -/
def impInit : ImpState :=
  { loadedCount := 0, totalCount := 0 }

/-- Derived progress of the imperative hook (line 8-9):
totalCount > 0 ? Math.round((loadedCount / totalCount) * 100) : 0. -/
def impProgress (s : ImpState) : ℤ :=
  if 0 < s.totalCount then
    round (((s.loadedCount : ℚ) / (s.totalCount : ℚ)) * 100)
  else 0

/-- Derived completion flag of the imperative hook (line 10):
totalCount > 0 && loadedCount === totalCount. -/
def impIsComplete (s : ImpState) : Bool :=
  decide (0 < s.totalCount) && (s.loadedCount == s.totalCount)

/-- Effects the imperative hook operations can perform: counter
increments (via the setState callbacks) and settling the returned
promise. An incFailed effect never occurs in this hook: it has no failed
counter; the constructor exists so its absence is expressible. -/
inductive HookEffect where
  | incTotal
  | incLoaded
  | incFailed
  | resolveSignal
  | rejectSignal
deriving DecidableEq, Repr

/-- The loadImage operation (lines 20-34): incrementTotal(), then the
image either decodes (onload: onAssetLoaded() and resolve()) or fails to
decode (onerror: reject). Returns the final state and the list of
effects performed, in order. -/
def loadImage (s : ImpState) (decodeOk : Bool) : ImpState × List HookEffect :=
  let s1 : ImpState := { s with totalCount := s.totalCount + 1 }
  if decodeOk then
    ({ s1 with loadedCount := s1.loadedCount + 1 },
     [HookEffect.incTotal, HookEffect.incLoaded, HookEffect.resolveSignal])
  else
    (s1, [HookEffect.incTotal, HookEffect.rejectSignal])

/-- The loadFont operation (lines 36-45): incrementTotal() runs at once,
the async function returns (resolving its promise) without awaiting
anything, and a setTimeout of 100 ms later calls onAssetLoaded(). The
effect list is tagged with firing times in milliseconds; fontFamily and
src are accepted and ignored, as in the source. -/
def loadFont (fontFamily : String) (src : Option String) (s : ImpState) :
    ImpState × List (Nat × HookEffect) :=
  ({ s with totalCount := s.totalCount + 1, loadedCount := s.loadedCount + 1 },
   [(0, HookEffect.incTotal), (0, HookEffect.resolveSignal),
    (100, HookEffect.incLoaded)])

/-- C1: for every sequence of settlement outcomes delivered to the
aggregator (at most one per tracked resource), after every individual
increment of the loaded or failed counter the invariant
loadedCount + failedCount <= totalCount holds, and equality holds exactly
when all tracked resources have settled. -/
theorem claim_C1 (total : Nat) (os : List Outcome) (h : os.length ≤ total) (k : Nat) :
    (runOutcomes total (os.take k)).loadedCount + (runOutcomes total (os.take k)).failedCount
        ≤ (runOutcomes total (os.take k)).totalCount ∧
    ((runOutcomes total (os.take k)).loadedCount + (runOutcomes total (os.take k)).failedCount
        = (runOutcomes total (os.take k)).totalCount ↔ (os.take k).length = total) := by
  have hs := foldl_applyOutcome_sum (os.take k) (initCounters total)
  have ht := foldl_applyOutcome_totalCount (os.take k) (initCounters total)
  have h1 : (initCounters total).loadedCount = 0 := rfl
  have h2 : (initCounters total).failedCount = 0 := rfl
  have h3 : (initCounters total).totalCount = total := rfl
  have hlen : (os.take k).length ≤ total := by
    rw [List.length_take]
    omega
  simp only [runOutcomes]
  omega

/-- Witness for C1 at total = 2, outcomes [loaded, failed], after the
first increment. -/
theorem claim_C1_witness :
    List.length [Outcome.loaded, Outcome.failed] ≤ 2 ∧
    ((runOutcomes 2 ([Outcome.loaded, Outcome.failed].take 1)).loadedCount
        + (runOutcomes 2 ([Outcome.loaded, Outcome.failed].take 1)).failedCount
        ≤ (runOutcomes 2 ([Outcome.loaded, Outcome.failed].take 1)).totalCount ∧
      ((runOutcomes 2 ([Outcome.loaded, Outcome.failed].take 1)).loadedCount
        + (runOutcomes 2 ([Outcome.loaded, Outcome.failed].take 1)).failedCount
        = (runOutcomes 2 ([Outcome.loaded, Outcome.failed].take 1)).totalCount
        ↔ ([Outcome.loaded, Outcome.failed].take 1).length = 2)) :=
  ⟨by decide, claim_C1 2 [Outcome.loaded, Outcome.failed] (by decide) 1⟩

/-- C2: for every reachable state of the accessor, isComplete is true iff
totalCount > 0 and loadedCount + failedCount = totalCount; in particular
isComplete is false whenever totalCount = 0. In the imperative accessor,
which maintains no failed counter (failedCount identically 0), this reads
isComplete iff totalCount > 0 and loadedCount = totalCount. -/
theorem claim_C2 :
    (∀ (total : Nat) (os : List Outcome),
      ((hookRun total os).2.isComplete = true) ↔
        (0 < (hookRun total os).1.totalCount ∧
          (hookRun total os).1.loadedCount + (hookRun total os).1.failedCount
            = (hookRun total os).1.totalCount)) ∧
    (∀ s : ImpState,
      (impIsComplete s = true) ↔ (0 < s.totalCount ∧ s.loadedCount = s.totalCount)) := by
  constructor
  · intro total os
    rcases Nat.eq_zero_or_pos total with h0 | hpos
    · subst h0
      rw [hookRun_snd_zero, hookRun_fst]
      have ht : (os.foldl applyOutcome (initCounters 0)).totalCount = 0 :=
        foldl_applyOutcome_totalCount os (initCounters 0)
      simp only [runOutcomes]
      simp [initDerived, ht]
    · rw [hookRun_snd_pos total os hpos, hookRun_fst]
      have ht : (os.foldl applyOutcome (initCounters total)).totalCount = total :=
        foldl_applyOutcome_totalCount os (initCounters total)
      simp only [runOutcomes]
      simp [pureDerived, ht, hpos, beq_iff_eq]
  · intro s
    simp [impIsComplete, beq_iff_eq]

/-- C3 counterexample: the imperative accessor, cited by the claim
(src/src/hooks/useAssetLoader.ts lines 8-9), rounds the percentage with
Math.round and uses loadedCount alone (no failed counter exists there):
with loadedCount = 1, totalCount = 3 it publishes 33, while the claimed
formula (loaded + failed) / total * 100 gives 100/3, which is not 33. -/
theorem claim_C3_counterexample :
    impProgress { loadedCount := 1, totalCount := 3 } = 33 ∧
    decide ((33 : ℚ) = ((1 : ℚ) + 0) / 3 * 100) = false := by
  constructor
  · norm_num [impProgress, round_eq]
  · simp only [decide_eq_false_iff_not]
    norm_num

/-- C3 amended: in the passive accessor, progress equals
(loadedCount + failedCount) / totalCount * 100 when totalCount > 0 and
equals 0 when totalCount = 0, and lies in [0, 100]; the imperative
accessor instead publishes round(loadedCount / totalCount * 100) when
totalCount > 0 and 0 when totalCount = 0, which also lies in [0, 100]. -/
theorem claim_C3_amended :
    (∀ (total : Nat) (os : List Outcome),
      ((hookRun total os).2.progress =
        if 0 < total then
          (((hookRun total os).1.loadedCount : ℚ) + ((hookRun total os).1.failedCount : ℚ))
            / (total : ℚ) * 100
        else 0) ∧
      (os.length ≤ total →
        0 ≤ (hookRun total os).2.progress ∧ (hookRun total os).2.progress ≤ 100)) ∧
    (∀ l : Nat, impProgress { loadedCount := l, totalCount := 0 } = 0) ∧
    (∀ s : ImpState, s.loadedCount ≤ s.totalCount →
        0 ≤ impProgress s ∧ impProgress s ≤ 100) := by
  refine ⟨?_, ?_, ?_⟩
  · intro total os
    rcases Nat.eq_zero_or_pos total with h0 | hpos
    · subst h0
      rw [hookRun_snd_zero]
      exact ⟨by simp [initDerived], fun _ => by simp [initDerived]⟩
    · rw [hookRun_snd_pos total os hpos, hookRun_fst]
      have ht : (os.foldl applyOutcome (initCounters total)).totalCount = total :=
        foldl_applyOutcome_totalCount os (initCounters total)
      have hs : (os.foldl applyOutcome (initCounters total)).loadedCount
          + (os.foldl applyOutcome (initCounters total)).failedCount
          = 0 + 0 + os.length :=
        foldl_applyOutcome_sum os (initCounters total)
      simp only [runOutcomes]
      constructor
      · simp [pureDerived, ht, hpos]
      · intro hlen
        have hsum : (os.foldl applyOutcome (initCounters total)).loadedCount
            + (os.foldl applyOutcome (initCounters total)).failedCount ≤ total := by omega
        have htq : (0 : ℚ) < (total : ℚ) := by exact_mod_cast hpos
        have hleq : ((os.foldl applyOutcome (initCounters total)).loadedCount : ℚ)
            + ((os.foldl applyOutcome (initCounters total)).failedCount : ℚ)
            ≤ (total : ℚ) := by exact_mod_cast hsum
        constructor
        · simp only [pureDerived, ht]
          positivity
        · simp only [pureDerived, ht]
          have h1 : (((os.foldl applyOutcome (initCounters total)).loadedCount : ℚ)
              + ((os.foldl applyOutcome (initCounters total)).failedCount : ℚ))
              / (total : ℚ) ≤ 1 := (div_le_one htq).mpr hleq
          calc (((os.foldl applyOutcome (initCounters total)).loadedCount : ℚ)
              + ((os.foldl applyOutcome (initCounters total)).failedCount : ℚ))
              / (total : ℚ) * 100
              ≤ 1 * 100 := mul_le_mul_of_nonneg_right h1 (by norm_num)
            _ = 100 := by norm_num
  · intro l
    simp [impProgress]
  · intro s hls
    rcases Nat.eq_zero_or_pos s.totalCount with h0 | hpos
    · simp [impProgress, h0]
    · have htq : (0 : ℚ) < (s.totalCount : ℚ) := by exact_mod_cast hpos
      have hlq : (s.loadedCount : ℚ) ≤ (s.totalCount : ℚ) := by exact_mod_cast hls
      have hq0 : (0 : ℚ) ≤ (s.loadedCount : ℚ) / (s.totalCount : ℚ) * 100 := by positivity
      have hq1 : (s.loadedCount : ℚ) / (s.totalCount : ℚ) * 100 ≤ 100 := by
        have h1 : (s.loadedCount : ℚ) / (s.totalCount : ℚ) ≤ 1 := (div_le_one htq).mpr hlq
        calc (s.loadedCount : ℚ) / (s.totalCount : ℚ) * 100
            ≤ 1 * 100 := mul_le_mul_of_nonneg_right h1 (by norm_num)
          _ = 100 := by norm_num
      rw [impProgress, if_pos hpos, round_eq]
      constructor
      · exact Int.le_floor.mpr (by push_cast; linarith)
      · have hfl : ((⌊(s.loadedCount : ℚ) / (s.totalCount : ℚ) * 100 + 1 / 2⌋ : ℤ) : ℚ)
            ≤ (s.loadedCount : ℚ) / (s.totalCount : ℚ) * 100 + 1 / 2 := Int.floor_le _
        have hlt : ((⌊(s.loadedCount : ℚ) / (s.totalCount : ℚ) * 100 + 1 / 2⌋ : ℤ) : ℚ)
            < 101 := by linarith
        have : (⌊(s.loadedCount : ℚ) / (s.totalCount : ℚ) * 100 + 1 / 2⌋ : ℤ) < 101 := by
          exact_mod_cast hlt
        omega

/-- Witness for C3 amended: passive run with 2 assets and one loaded
settlement, imperative state with 1 of 2 loaded. -/
theorem claim_C3_amended_witness :
    List.length [Outcome.loaded] ≤ 2 ∧
    (0 ≤ (hookRun 2 [Outcome.loaded]).2.progress ∧
      (hookRun 2 [Outcome.loaded]).2.progress ≤ 100) ∧
    (0 ≤ impProgress { loadedCount := 1, totalCount := 2 } ∧
      impProgress { loadedCount := 1, totalCount := 2 } ≤ 100) :=
  ⟨by decide,
   (claim_C3_amended.1 2 [Outcome.loaded]).2 (by decide),
   claim_C3_amended.2.2 { loadedCount := 1, totalCount := 2 } (by decide)⟩

lemma firstSettlement_append_isSome (l : List (Nat × Outcome)) (t : Nat) (o : Outcome) :
    (firstSettlement (l ++ [(t, o)])).isSome = true := by
  cases hl : l ++ [(t, o)] with
  | nil => simp at hl
  | cons a tl => exact firstSettlement_cons_isSome a tl

/-- C4 counterexample: an image that is not complete at scan time and
never fires a load or error event is a tracked resource whose tracker
produces no terminal outcome at all — scanImages registers no timeout, so
the per-resource promise never resolves and no counter increment is ever
contributed, contradicting "exactly one terminal outcome exactly once". -/
theorem claim_C4_counterexample :
    imageIncrements { complete := false, naturalWidth := 0, loadAt := none, errorAt := none }
      = [] := rfl

/-- C4 amended: for audio, video and font resources the tracker produces
exactly one terminal outcome exactly once (exactly one of the fast path
and the slow path executes, and exactly one counter increment is
contributed); image resources settle at most once, but an incomplete
image that never fires events contributes no outcome. -/
theorem claim_C4_amended :
    (∀ m : MediaResource, (mediaIncrements m).length = 1) ∧
    (∀ f : FontResource, (fontIncrements f).length = 1) ∧
    (∀ m : MediaResource, 4 ≤ m.readyState →
        mediaResolveAttempts m = [(0, Outcome.loaded)]) ∧
    (∀ m : MediaResource, m.readyState < 4 →
        mediaResolveAttempts m = mediaListenerAttempts m ++ [(timeoutDuration, Outcome.failed)]) ∧
    (∀ img : ImageResource, (imageIncrements img).length ≤ 1) := by
  refine ⟨?_, ?_, ?_, ?_, ?_⟩
  · intro m
    by_cases h : 4 ≤ m.readyState
    · simp [mediaIncrements, settleMedia, mediaResolveAttempts, h, firstSettlement, raceStep]
    · have hs : (settleMedia m).isSome = true := by
        rw [settleMedia, mediaResolveAttempts, if_neg h]
        exact firstSettlement_append_isSome _ _ _
      obtain ⟨p, hp⟩ := Option.isSome_iff_exists.mp hs
      simp [mediaIncrements, hp]
  · intro f
    obtain ⟨st, sa⟩ := f
    cases st with
    | unloaded =>
      simp [fontIncrements, settleFont, fontResolveAttempts, firstSettlement, raceStep]
    | loading =>
      cases sa with
      | none =>
        simp [fontIncrements, settleFont, fontResolveAttempts, firstSettlement, raceStep]
      | some p =>
        have hs : (settleFont ⟨FontStatus.loading, some p⟩).isSome = true := by
          rw [settleFont]
          simp only [fontResolveAttempts, List.singleton_append]
          exact firstSettlement_cons_isSome _ _
        obtain ⟨q, hq⟩ := Option.isSome_iff_exists.mp hs
        simp [fontIncrements, hq]
    | loaded =>
      simp [fontIncrements, settleFont, fontResolveAttempts, firstSettlement, raceStep]
    | error =>
      simp [fontIncrements, settleFont, fontResolveAttempts, firstSettlement, raceStep]
  · intro m h
    rw [mediaResolveAttempts, if_pos h]
  · intro m h
    rw [mediaResolveAttempts, if_neg (by omega)]
  · intro img
    cases hsi : settleImage img with
    | none => simp [imageIncrements, hsi]
    | some p => simp [imageIncrements, hsi]

/-- Witness for C4 amended: a fully buffered media element, a loading
font whose promise settles, and the discharged fast-path hypothesis. -/
theorem claim_C4_amended_witness :
    (mediaIncrements { readyState := 5, canplayAt := none, errorAt := none }).length = 1 ∧
    4 ≤ (5 : Nat) ∧
    mediaResolveAttempts { readyState := 5, canplayAt := none, errorAt := none }
      = [(0, Outcome.loaded)] ∧
    (fontIncrements { status := FontStatus.loading, settledAt := some (3, true) }).length = 1 :=
  ⟨claim_C4_amended.1 _, by decide,
   claim_C4_amended.2.2.1 _ (by decide),
   claim_C4_amended.2.1 _⟩

/-- C5 counterexample: an image that is not complete at scan time and
never fires load or error events never settles at all — scanImages races
no timeout — contradicting "settles as failed after exactly the fixed
timeout duration" for the image kind. -/
theorem claim_C5_counterexample :
    settleImage { complete := false, naturalWidth := 0, loadAt := none, errorAt := none }
      = none := rfl

/-- C5 amended: for the video, audio and font kinds, a resource that is
not fast-path settled and never fires success or failure events settles
as failed after exactly the 7-unit timeout, not before and not after; an
image in the same situation never settles, because scanImages registers
no timeout. -/
theorem claim_C5_amended :
    (∀ m : MediaResource, m.readyState < 4 → m.canplayAt = none → m.errorAt = none →
        settleMedia m = some (timeoutDuration, Outcome.failed)) ∧
    (∀ f : FontResource, f.status = FontStatus.loading → f.settledAt = none →
        settleFont f = some (timeoutDuration, Outcome.failed)) ∧
    (∀ img : ImageResource, img.complete = false → img.loadAt = none → img.errorAt = none →
        settleImage img = none) := by
  refine ⟨?_, ?_, ?_⟩
  · intro m h1 h2 h3
    rw [settleMedia, mediaResolveAttempts, if_neg (by omega)]
    simp [mediaListenerAttempts, h2, h3, firstSettlement, raceStep]
  · intro f h1 h2
    simp [settleFont, fontResolveAttempts, h1, h2, firstSettlement, raceStep]
  · intro img h1 h2 h3
    simp [settleImage, imageResolveAttempts, h1, h2, h3, imageListenerAttempts, firstSettlement]

/-- Witness for C5 amended: an idle media element, an idle loading font,
and an idle incomplete image. -/
theorem claim_C5_amended_witness :
    (0 : Nat) < 4 ∧
    settleMedia { readyState := 0, canplayAt := none, errorAt := none }
      = some (timeoutDuration, Outcome.failed) ∧
    settleFont { status := FontStatus.loading, settledAt := none }
      = some (timeoutDuration, Outcome.failed) ∧
    settleImage { complete := false, naturalWidth := 1, loadAt := none, errorAt := none }
      = none :=
  ⟨by decide,
   claim_C5_amended.1 _ (by decide) rfl rfl,
   claim_C5_amended.2.1 _ rfl rfl,
   claim_C5_amended.2.2 _ rfl rfl rfl⟩

/-- C6: every resource already fully usable at scan time settles
immediately (time 0) without registering listeners or racing the timeout:
a complete image with natural dimensions settles loaded, a complete image
with naturalWidth = 0 settles failed, a media element with
readyState >= 4 settles loaded, a font with status loaded or unloaded
settles loaded, and a font with status error settles failed; in each case
the resolve-attempt list is exactly the one immediate settlement. -/
theorem claim_C6 :
    (∀ img : ImageResource, img.complete = true → 0 < img.naturalWidth →
        imageResolveAttempts img = [(0, Outcome.loaded)] ∧
        settleImage img = some (0, Outcome.loaded)) ∧
    (∀ img : ImageResource, img.complete = true → img.naturalWidth = 0 →
        imageResolveAttempts img = [(0, Outcome.failed)] ∧
        settleImage img = some (0, Outcome.failed)) ∧
    (∀ m : MediaResource, 4 ≤ m.readyState →
        mediaResolveAttempts m = [(0, Outcome.loaded)] ∧
        settleMedia m = some (0, Outcome.loaded)) ∧
    (∀ f : FontResource, f.status = FontStatus.loaded ∨ f.status = FontStatus.unloaded →
        fontResolveAttempts f = [(0, Outcome.loaded)] ∧
        settleFont f = some (0, Outcome.loaded)) ∧
    (∀ f : FontResource, f.status = FontStatus.error →
        fontResolveAttempts f = [(0, Outcome.failed)] ∧
        settleFont f = some (0, Outcome.failed)) := by
  refine ⟨?_, ?_, ?_, ?_, ?_⟩
  · intro img h1 h2
    constructor
    · simp [imageResolveAttempts, h1, h2]
    · simp [settleImage, imageResolveAttempts, h1, h2, firstSettlement, raceStep]
  · intro img h1 h2
    constructor
    · simp [imageResolveAttempts, h1, h2]
    · simp [settleImage, imageResolveAttempts, h1, h2, firstSettlement, raceStep]
  · intro m h
    constructor
    · rw [mediaResolveAttempts, if_pos h]
    · rw [settleMedia, mediaResolveAttempts, if_pos h]
      rfl
  · intro f h
    rcases h with h | h
    · exact ⟨by simp [fontResolveAttempts, h],
        by simp [settleFont, fontResolveAttempts, h, firstSettlement, raceStep]⟩
    · exact ⟨by simp [fontResolveAttempts, h],
        by simp [settleFont, fontResolveAttempts, h, firstSettlement, raceStep]⟩
  · intro f h
    exact ⟨by simp [fontResolveAttempts, h],
      by simp [settleFont, fontResolveAttempts, h, firstSettlement, raceStep]⟩

/-- Witness for C6: concrete fast-path resources of each kind. -/
theorem claim_C6_witness :
    imageResolveAttempts { complete := true, naturalWidth := 2, loadAt := none, errorAt := none }
      = [(0, Outcome.loaded)] ∧
    settleImage { complete := true, naturalWidth := 0, loadAt := none, errorAt := none }
      = some (0, Outcome.failed) ∧
    settleMedia { readyState := 4, canplayAt := none, errorAt := none }
      = some (0, Outcome.loaded) ∧
    settleFont { status := FontStatus.unloaded, settledAt := none }
      = some (0, Outcome.loaded) ∧
    settleFont { status := FontStatus.error, settledAt := none }
      = some (0, Outcome.failed) :=
  ⟨(claim_C6.1 _ rfl (by decide)).1,
   (claim_C6.2.1 _ rfl rfl).2,
   (claim_C6.2.2.1 _ (by decide)).2,
   (claim_C6.2.2.2.1 _ (Or.inr rfl)).2,
   (claim_C6.2.2.2.2 _ rfl).2⟩

/-- C7: in passive mode a kind is tracked iff it is selected by scan
(scan is "all" or the kind is in the scan list) and it is not present in
ignore; with scan = ["images"] and ignore = ["images"] no kind is tracked
and the snapshot reads totalCount = 0, isComplete = false, progress = 0. -/
theorem claim_C7 :
    (∀ (opts : AssetLoaderOptions) (k : Kind),
        shouldScan opts k = true ↔
          ((opts.scan = ScanOption.all ∨ ∃ ks, opts.scan = ScanOption.kinds ks ∧ k ∈ ks) ∧
            k ∉ opts.ignore)) ∧
    (∀ doc : Kind → Nat,
        (∀ k, shouldScan
            { scan := ScanOption.kinds [Kind.images], ignore := [Kind.images] } k = false) ∧
        mountTotal { scan := ScanOption.kinds [Kind.images], ignore := [Kind.images] } doc = 0 ∧
        (hookRun (mountTotal
            { scan := ScanOption.kinds [Kind.images], ignore := [Kind.images] } doc)
            []).1.totalCount = 0 ∧
        (hookRun (mountTotal
            { scan := ScanOption.kinds [Kind.images], ignore := [Kind.images] } doc)
            []).2.isComplete = false ∧
        (hookRun (mountTotal
            { scan := ScanOption.kinds [Kind.images], ignore := [Kind.images] } doc)
            []).2.progress = 0) := by
  constructor
  · intro opts k
    obtain ⟨sc, ig⟩ := opts
    cases sc with
    | all => simp [shouldScan, kind_contains_iff]
    | kinds ks => simp [shouldScan, kind_contains_iff]
  · intro doc
    refine ⟨fun k => by cases k <;> rfl, rfl, rfl, rfl, rfl⟩

/-- Witness for C7: with the default-like configuration scan = "all",
ignore = [], the images kind is tracked. -/
theorem claim_C7_witness :
    shouldScan { scan := ScanOption.all, ignore := [] } Kind.images = true :=
  (claim_C7.1 { scan := ScanOption.all, ignore := [] } Kind.images).mpr
    ⟨Or.inl rfl, by simp⟩

/-- C8 counterexample: in the imperative hook a failed loadImage performs
exactly an incTotal and a promise rejection — there is no failed counter
and no failure increment of any counter, contradicting "failedCount
increments by 1". -/
theorem claim_C8_counterexample :
    (loadImage impInit false).2 = [HookEffect.incTotal, HookEffect.rejectSignal] ∧
    (loadImage impInit false).2.contains HookEffect.incFailed = false ∧
    (loadImage impInit false).1 = { loadedCount := 0, totalCount := 1 } :=
  ⟨rfl, rfl, rfl⟩

/-- C8 amended: every loadImage call increments totalCount by 1 and
tracks exactly one resource; when the resource fails to decode the
returned deferred signal rejects and loadedCount is unchanged, but the
imperative hook maintains no failed counter, so no counter records the
failure; on success loadedCount increments by 1 and the signal
resolves. -/
theorem claim_C8_amended :
    ∀ s : ImpState,
      (loadImage s false).1.totalCount = s.totalCount + 1 ∧
      (loadImage s false).1.loadedCount = s.loadedCount ∧
      (loadImage s false).2 = [HookEffect.incTotal, HookEffect.rejectSignal] ∧
      (loadImage s false).2.contains HookEffect.incFailed = false ∧
      (loadImage s true).1.totalCount = s.totalCount + 1 ∧
      (loadImage s true).1.loadedCount = s.loadedCount + 1 ∧
      (loadImage s true).2
        = [HookEffect.incTotal, HookEffect.incLoaded, HookEffect.resolveSignal] :=
  fun _ => ⟨rfl, rfl, rfl, rfl, rfl, rfl, rfl⟩

/-- C9: loadFont never settles as failed for any arguments: it increments
totalCount at once, its promise resolves immediately (time 0), no
rejection and no failure increment ever occur, and the single loadedCount
increment happens only at the fixed 100 ms delay, after the promise has
already resolved. -/
theorem claim_C9 :
    ∀ (fontFamily : String) (src : Option String) (s : ImpState),
      (loadFont fontFamily src s).1.totalCount = s.totalCount + 1 ∧
      (loadFont fontFamily src s).1.loadedCount = s.loadedCount + 1 ∧
      (loadFont fontFamily src s).2
        = [(0, HookEffect.incTotal), (0, HookEffect.resolveSignal),
           (100, HookEffect.incLoaded)] ∧
      ((loadFont fontFamily src s).2.map Prod.snd).contains HookEffect.rejectSignal
        = false ∧
      ((loadFont fontFamily src s).2.map Prod.snd).contains HookEffect.incFailed
        = false ∧
      (loadFont fontFamily src s).2.filter (fun p => p.2 == HookEffect.incLoaded)
        = [(100, HookEffect.incLoaded)] :=
  fun _ _ _ => ⟨rfl, rfl, rfl, rfl, rfl, rfl⟩

/-- C10: in passive mode every aggregator update leaves a counter
unchanged or increments it, so along every run totalCount, loadedCount,
failedCount and progress are monotonically non-decreasing, and (given
at-most-once settlement per resource) isComplete remains true once it
becomes true. -/
theorem claim_C10 (total : Nat) (os : List Outcome) (h : os.length ≤ total)
    (i j : Nat) (hij : i ≤ j) :
    (∀ (c : Counters) (o : Outcome),
        applyOutcome c o = { c with loadedCount := c.loadedCount + 1 } ∨
        applyOutcome c o = { c with failedCount := c.failedCount + 1 }) ∧
    (hookRun total (os.take i)).1.totalCount ≤ (hookRun total (os.take j)).1.totalCount ∧
    (hookRun total (os.take i)).1.loadedCount ≤ (hookRun total (os.take j)).1.loadedCount ∧
    (hookRun total (os.take i)).1.failedCount ≤ (hookRun total (os.take j)).1.failedCount ∧
    (hookRun total (os.take i)).2.progress ≤ (hookRun total (os.take j)).2.progress ∧
    ((hookRun total (os.take i)).2.isComplete = true →
      (hookRun total (os.take j)).2.isComplete = true) := by
  have e1 : (os.take j).take i = os.take i := by
    rw [List.take_take, Nat.min_eq_left hij]
  have e2 : runOutcomes total (os.take j)
      = ((os.take j).drop i).foldl applyOutcome (runOutcomes total (os.take i)) := by
    conv_lhs => rw [← List.take_append_drop i (os.take j)]
    simp only [runOutcomes]
    rw [List.foldl_append, e1]
  have hti : (runOutcomes total (os.take i)).totalCount = total :=
    foldl_applyOutcome_totalCount (os.take i) (initCounters total)
  have htj : (runOutcomes total (os.take j)).totalCount = total :=
    foldl_applyOutcome_totalCount (os.take j) (initCounters total)
  have hsi : (runOutcomes total (os.take i)).loadedCount
      + (runOutcomes total (os.take i)).failedCount = 0 + 0 + (os.take i).length :=
    foldl_applyOutcome_sum (os.take i) (initCounters total)
  have hsj : (runOutcomes total (os.take j)).loadedCount
      + (runOutcomes total (os.take j)).failedCount = 0 + 0 + (os.take j).length :=
    foldl_applyOutcome_sum (os.take j) (initCounters total)
  have hlen : (os.take i).length ≤ (os.take j).length := by
    rw [List.length_take, List.length_take]
    omega
  have hlenj : (os.take j).length ≤ total := by
    rw [List.length_take]
    omega
  refine ⟨fun c o => by cases o with
      | loaded => exact Or.inl rfl
      | failed => exact Or.inr rfl, ?_, ?_, ?_, ?_, ?_⟩
  · rw [hookRun_fst, hookRun_fst, hti, htj]
  · rw [hookRun_fst, hookRun_fst, e2]
    exact le_foldl_applyOutcome_loadedCount _ _
  · rw [hookRun_fst, hookRun_fst, e2]
    exact le_foldl_applyOutcome_failedCount _ _
  · rcases Nat.eq_zero_or_pos total with h0 | hpos
    · subst h0
      have hos : os = [] := List.eq_nil_of_length_eq_zero (Nat.le_zero.mp h)
      subst hos
      simp
    · rw [hookRun_snd_pos _ _ hpos, hookRun_snd_pos _ _ hpos]
      simp only [pureDerived]
      have hci : ((runOutcomes total (os.take i)).loadedCount : ℚ)
          + ((runOutcomes total (os.take i)).failedCount : ℚ)
          = ((os.take i).length : ℚ) := by
        exact_mod_cast (show (runOutcomes total (os.take i)).loadedCount
          + (runOutcomes total (os.take i)).failedCount = (os.take i).length by omega)
      have hcj : ((runOutcomes total (os.take j)).loadedCount : ℚ)
          + ((runOutcomes total (os.take j)).failedCount : ℚ)
          = ((os.take j).length : ℚ) := by
        exact_mod_cast (show (runOutcomes total (os.take j)).loadedCount
          + (runOutcomes total (os.take j)).failedCount = (os.take j).length by omega)
      rw [hci, hcj, hti, htj]
      have hc : ((os.take i).length : ℚ) ≤ ((os.take j).length : ℚ) := by
        exact_mod_cast hlen
      have htq : (0 : ℚ) < (total : ℚ) := by exact_mod_cast hpos
      exact mul_le_mul_of_nonneg_right
        ((div_le_div_iff_of_pos_right htq).mpr hc) (by norm_num)
  · rcases Nat.eq_zero_or_pos total with h0 | hpos
    · subst h0
      have hos : os = [] := List.eq_nil_of_length_eq_zero (Nat.le_zero.mp h)
      subst hos
      simp
    · rw [hookRun_snd_pos _ _ hpos, hookRun_snd_pos _ _ hpos]
      simp only [pureDerived, beq_iff_eq]
      rw [hsi, hsj, hti, htj]
      omega

/-- Witness for C10 at total = 2, outcomes [loaded, failed], comparing
the states after the first and after the second settlement. -/
theorem claim_C10_witness :
    List.length [Outcome.loaded, Outcome.failed] ≤ 2 ∧ (1 : Nat) ≤ 2 ∧
    (hookRun 2 ([Outcome.loaded, Outcome.failed].take 1)).1.loadedCount
      ≤ (hookRun 2 ([Outcome.loaded, Outcome.failed].take 2)).1.loadedCount ∧
    (hookRun 2 ([Outcome.loaded, Outcome.failed].take 1)).2.progress
      ≤ (hookRun 2 ([Outcome.loaded, Outcome.failed].take 2)).2.progress :=
  ⟨by decide, by decide,
   (claim_C10 2 [Outcome.loaded, Outcome.failed] (by decide) 1 2 (by decide)).2.2.1,
   (claim_C10 2 [Outcome.loaded, Outcome.failed] (by decide) 1 2 (by decide)).2.2.2.2.1⟩
